import Mathlib

set_option autoImplicit false

/-!
Verification of the `BaseComponent` web-component base class
(`src/base_component.js`): reactive property diffing, the render lifecycle,
route-entry parameter assignment, navigation parameter stashing, and the
event-driven state container consumed by components.

A JavaScript object is modelled as an association list `List (String × V)`
holding its keys in insertion order; an object never holds the same key
twice, so the list length coincides with `Object.keys(o).length` for every
object the code builds. Property values are drawn from an opaque type `V`
with decidable equality modelling JavaScript `===`.
-/

namespace BaseComp

/-- A JavaScript object: string keys in insertion order mapped to values. -/
abbrev Obj (V : Type) := List (String × V)

/-- `o[k]`: the value stored at key `k`, `undefined` modelled as `none`. -/
def assoc {V : Type} : Obj V → String → Option V
  | [], _ => none
  | (k', v) :: rest, k => if k' = k then some v else assoc rest k

/-- `o.hasOwnProperty(k)`. -/
def containsKey {V : Type} (o : Obj V) (k : String) : Bool :=
  (assoc o k).isSome

/-- `o[k] = v`: overwrite in place, or append when `k` is new. -/
def setKey {V : Type} : Obj V → String → V → Obj V
  | [], k, v => [(k, v)]
  | (k', v') :: rest, k, v =>
      if k' = k then (k', v) :: rest else (k', v') :: setKey rest k v

/-- `delete o[k]`. -/
def removeKey {V : Type} : Obj V → String → Obj V
  | [], _ => []
  | (k', v') :: rest, k =>
      if k' = k then removeKey rest k else (k', v') :: removeKey rest k

/-- The object spread `{...o, ...p}`: the keys of `o` in order, each taking
`p`'s value when `p` also has the key, followed by the keys of `p` absent
from `o`, in `p`'s order. -/
def spreadMerge {V : Type} (o p : Obj V) : Obj V :=
  o.map (fun kv => (kv.1, (assoc p kv.1).getD kv.2)) ++
    p.filter (fun kv => !(containsKey o kv.1))

/-- `#shallowEquals(obj1, obj2)`: same key count, and every key of `obj1` is
an own property of `obj2` holding a `===`-equal value. -/
def shallowEquals {V : Type} [DecidableEq V] (o1 o2 : Obj V) : Bool :=
  o1.length == o2.length &&
    (o1.map Prod.fst).all
      (fun k => containsKey o2 k && decide (assoc o1 k = assoc o2 k))

/-- `Object.fromEntries(pairs)`: later pairs overwrite earlier values in
place, as for `URLSearchParams` entries with repeated keys. -/
def fromEntries {V : Type} (l : List (String × V)) : Obj V :=
  l.foldl (fun acc kv => setKey acc kv.1 kv.2) []

/-- Modelled from the spec: the State Container (`Bloc`, supplied by the
external `@felangel/bloc` package whose sources are not part of this
repository). It holds the current state, the closed flag, the subscribers in
subscription order, and a delivery log recording each `(subscriber, state)`
notification in delivery order. `closeCalls` counts invocations of `close`.
The asynchronous reduction of an event is modelled by its completed effect. -/
structure Bloc (S : Type) where
  state : S
  closed : Bool
  subscribers : List Nat
  log : List (Nat × S)
  closeCalls : Nat

namespace Bloc

/-- Modelled from the spec: one yield of a reduction — the yielded state
becomes the current state and is broadcast to all current subscribers in
subscription order, before the next yield is processed. -/
def emit {S : Type} (c : Bloc S) (s : S) : Bloc S :=
  { c with state := s, log := c.log ++ c.subscribers.map (fun i => (i, s)) }

/-- Modelled from the spec: `Add(event)` — a no-op once closed; otherwise the
externally supplied `EventToState` mapping `f` is applied to the current
state and the event, and its yields are processed one at a time. -/
def add {E S : Type} (f : S → E → List S) (c : Bloc S) (e : E) : Bloc S :=
  if c.closed then c else (f c.state e).foldl emit c

/-- Modelled from the spec: `Listen(callback)` — registers a subscriber
(identified here by an index); late subscriptions after closure are
permitted. -/
def listen {S : Type} (c : Bloc S) (i : Nat) : Bloc S :=
  { c with subscribers := c.subscribers ++ [i] }

/-- Modelled from the spec: `Close()` — transitions to Closed and releases
all subscriptions. -/
def close {S : Type} (c : Bloc S) : Bloc S :=
  { c with closed := true, subscribers := [], closeCalls := c.closeCalls + 1 }

end Bloc

/-- A client interaction with a state container. -/
inductive BlocOp (E : Type) where
  | addOp (e : E)
  | listenOp (i : Nat)
  | closeOp

/-- Run a sequence of interactions against a state container. -/
def runOps {E S : Type} (f : S → E → List S) : Bloc S → List (BlocOp E) → Bloc S
  | c, [] => c
  | c, BlocOp.addOp e :: ops => runOps f (Bloc.add f c e) ops
  | c, BlocOp.listenOp i :: ops => runOps f (Bloc.listen c i) ops
  | c, BlocOp.closeOp :: ops => runOps f (Bloc.close c) ops

/-- The subscriber notifications produced by a sequence of yields: each yield
is delivered to every subscriber, in subscription order, before the next
yield. -/
def notifications {S : Type} : List S → List Nat → List (Nat × S)
  | [], _ => []
  | s :: ys, subs => subs.map (fun i => (i, s)) ++ notifications ys subs

/-- The last element of a list, or the default when the list is empty. -/
def lastD {α : Type} : List α → α → α
  | [], d => d
  | x :: xs, _ => lastD xs x

/-- The state of a `BaseComponent` instance: its property bag `#props`, the
optional bound state container `#bloc`, whether the `#subscription` to it is
live, DOM connectedness, whether the shadow-root render target exists, and
the log of data objects handed to the external renderer (one entry per
render applied to the shadow root). -/
structure Component (V : Type) where
  props : Obj V
  bloc : Option (Bloc V)
  subscription : Bool
  isConnected : Bool
  shadowRoot : Bool
  renderLog : List (Obj (Option V))

namespace Component

/-- The data object `{ ...this.#props, state: this.#bloc?.state }` passed to
`render`; values live in `Option V` so that an `undefined` state (no bound
container) is representable. -/
def renderInput {V : Type} (props : Obj V) (st : Option V) : Obj (Option V) :=
  spreadMerge (props.map (fun kv => (kv.1, some kv.2))) [("state", st)]

/-- `constructor(bloc)`: stores the container reference, starts with an
empty property bag, and attaches the shadow root. `isConnected` stays false
until the element is inserted into a document. -/
def construct {V : Type} (b : Option (Bloc V)) : Component V :=
  { props := [], bloc := b, subscription := false, isConnected := false,
    shadowRoot := true, renderLog := [] }

/-- `requestUpdate()`: builds the template from the merged props and bloc
state, and renders it into the shadow root when that target exists. -/
def requestUpdate {V : Type} (c : Component V) : Component V :=
  if c.shadowRoot then
    { c with renderLog :=
        c.renderLog ++ [renderInput c.props (c.bloc.map Bloc.state)] }
  else c

/-- `setProps(partialProps)`: computes the shallow merge; when it differs
from the current props under `#shallowEquals`, stores it and re-renders if
the element is connected; otherwise leaves the component untouched. -/
def setProps {V : Type} [DecidableEq V] (c : Component V) (p : Obj V) :
    Component V :=
  let newProps := spreadMerge c.props p
  if shallowEquals c.props newProps then c
  else
    let c' := { c with props := newProps }
    if c.isConnected then requestUpdate c' else c'

/-- `connectedCallback()`: runs once the element is connected to the document
(so `isConnected` has become true); subscribes to the bloc when one is bound
and triggers the initial render. The subscription callback itself fires only
on later bloc emissions, so it contributes nothing to the mount itself. -/
def connectedCallback {V : Type} (c : Component V) : Component V :=
  requestUpdate { c with isConnected := true, subscription := c.bloc.isSome }

/-- `disconnectedCallback()`: cancels the subscription when one exists
(`this.#subscription?.unsubscribe()`) and closes the bloc when one is bound
(`this.#bloc?.close()`). -/
def disconnectedCallback {V : Type} (c : Component V) : Component V :=
  { c with subscription := false, bloc := c.bloc.map Bloc.close }

end Component

/-- The part of the router's location object read by `onBeforeEnter`:
`pathname`, the query string `search`, the route path parameters `params`,
and the query parameter entries `searchParams` in query-string order. -/
structure RouterLocation (V : Type) where
  pathname : String
  search : String
  params : Obj V
  searchParams : List (String × V)

/-- The process-wide navigation store: parameter objects stashed on `window`,
keyed by path + query string. -/
abbrev Store (V : Type) := Obj (Obj V)

/-- `navigate(path, { params })`: stashes a non-empty params object on
`window` under the target path, then delegates to the router (`Router.go`). -/
def navigate {V : Type} (path : String) (ps : Obj V) (store : Store V) :
    Store V :=
  if ps.length > 0 then setKey store path ps else store

/-- `onBeforeEnter(location)`: reads the stash for `pathname + search` and
deletes it, combines route path parameters with query parameters by object
spread (the second spread wins on a key collision), and for each combined
key assigns `passedParams?.[key] ?? value` through the component's property
setter. Returns the assignment list in loop order and the updated store. -/
def onBeforeEnter {V : Type} (loc : RouterLocation V) (store : Store V) :
    List (String × V) × Store V :=
  let key := loc.pathname ++ loc.search
  let passedParams := assoc store key
  let store' := removeKey store key
  let combinedParams := spreadMerge loc.params (fromEntries loc.searchParams)
  (combinedParams.map
      (fun kv => (kv.1, ((passedParams.bind (fun pp => assoc pp kv.1)).getD kv.2))),
    store')

/-! ### Association-list lemmas -/

theorem assoc_append_some {V : Type} {a : Obj V} (b : Obj V) {k : String}
    {v : V} (h : assoc a k = some v) : assoc (a ++ b) k = some v := by
  induction a with
  | nil => simp [assoc] at h
  | cons kv rest ih =>
      obtain ⟨k', v'⟩ := kv
      by_cases hk : k' = k
      · simp [assoc, hk] at h ⊢; exact h
      · simp [assoc, hk] at h ⊢; exact ih h

theorem assoc_append_none {V : Type} {a : Obj V} (b : Obj V) {k : String}
    (h : assoc a k = none) : assoc (a ++ b) k = assoc b k := by
  induction a with
  | nil => simp [assoc]
  | cons kv rest ih =>
      obtain ⟨k', v'⟩ := kv
      by_cases hk : k' = k
      · simp [assoc, hk] at h
      · simp [assoc, hk] at h ⊢; exact ih h

theorem assoc_mapVals {V W : Type} (g : String → V → W) (o : Obj V)
    (k : String) :
    assoc (o.map (fun kv => (kv.1, g kv.1 kv.2))) k = (assoc o k).map (g k) := by
  induction o with
  | nil => simp [assoc]
  | cons kv rest ih =>
      obtain ⟨k', v'⟩ := kv
      by_cases hk : k' = k
      · subst hk; simp [assoc]
      · simp [assoc, hk, ih]

theorem assoc_filter_key {V : Type} (p : String → Bool) (o : Obj V)
    (k : String) :
    assoc (o.filter (fun kv => p kv.1)) k =
      if p k then assoc o k else none := by
  induction o with
  | nil => simp [assoc]
  | cons kv rest ih =>
      obtain ⟨k', v'⟩ := kv
      by_cases hp : p k'
      · by_cases hk : k' = k
        · subst hk; simp [List.filter_cons, hp, assoc]
        · simp [List.filter_cons, hp, assoc, hk, ih]
      · by_cases hk : k' = k
        · subst hk
          simp [List.filter_cons, hp, assoc, ih]
        · simp [List.filter_cons, hp, assoc, hk, ih]

theorem assoc_removeKey {V : Type} (o : Obj V) (k' k : String) :
    assoc (removeKey o k') k = if k' = k then none else assoc o k := by
  induction o with
  | nil => simp [removeKey, assoc]
  | cons kv rest ih =>
      obtain ⟨k₀, v₀⟩ := kv
      by_cases h0 : k₀ = k'
      · subst h0
        by_cases hk : k₀ = k
        · subst hk; simp [removeKey, ih]
        · simp [removeKey, assoc, hk, ih]
      · by_cases hk : k₀ = k
        · subst hk
          have : ¬ k' = k₀ := fun h => h0 h.symm
          simp [removeKey, h0, assoc, this]
        · simp [removeKey, h0, assoc, hk, ih]

theorem assoc_setKey {V : Type} (o : Obj V) (k' k : String) (v : V) :
    assoc (setKey o k' v) k = if k' = k then some v else assoc o k := by
  induction o with
  | nil => simp [setKey, assoc]
  | cons kv rest ih =>
      obtain ⟨k₀, v₀⟩ := kv
      by_cases h0 : k₀ = k'
      · subst h0
        by_cases hk : k₀ = k
        · subst hk; simp [setKey, assoc]
        · simp [setKey, assoc, hk]
      · by_cases hk : k₀ = k
        · subst hk
          have : ¬ k' = k₀ := fun h => h0 h.symm
          simp [setKey, h0, assoc, this]
        · simp [setKey, h0, assoc, hk, ih]

/-- Characterization of lookup in the object spread `{...o, ...p}`. -/
theorem assoc_spreadMerge {V : Type} (o p : Obj V) (k : String) :
    assoc (spreadMerge o p) k =
      match assoc o k with
      | some v => some ((assoc p k).getD v)
      | none => assoc p k := by
  unfold spreadMerge
  cases h : assoc o k with
  | some v =>
      have h1 : assoc (o.map (fun kv => (kv.1, (assoc p kv.1).getD kv.2))) k
          = some ((assoc p k).getD v) := by
        rw [assoc_mapVals (fun s w => (assoc p s).getD w) o k, h]; rfl
      rw [assoc_append_some _ h1]
  | none =>
      have h1 : assoc (o.map (fun kv => (kv.1, (assoc p kv.1).getD kv.2))) k
          = none := by
        rw [assoc_mapVals (fun s w => (assoc p s).getD w) o k, h]; rfl
      rw [assoc_append_none _ h1,
        assoc_filter_key (fun s => !(containsKey o s)) p k]
      simp [containsKey, h]

theorem containsKey_spreadMerge {V : Type} (o p : Obj V) (k : String) :
    containsKey (spreadMerge o p) k = (containsKey o k || containsKey p k) := by
  unfold containsKey
  rw [assoc_spreadMerge]
  cases assoc o k <;> cases assoc p k <;> simp

theorem containsKey_of_mem {V : Type} {p : Obj V} {kv : String × V}
    (h : kv ∈ p) : containsKey p kv.1 = true := by
  induction p with
  | nil => simp at h
  | cons kv' rest ih =>
      obtain ⟨k', v'⟩ := kv'
      rcases List.mem_cons.mp h with h1 | h1
      · subst h1; simp [containsKey, assoc]
      · by_cases hk : k' = kv.1
        · simp [containsKey, assoc, hk]
        · simpa [containsKey, assoc, hk] using ih h1

theorem assoc_isSome_of_mem_keys {V : Type} {o : Obj V} {k : String}
    (h : k ∈ o.map Prod.fst) : (assoc o k).isSome = true := by
  obtain ⟨kv, hmem, hfst⟩ := List.mem_map.mp h
  subst hfst
  exact containsKey_of_mem hmem

/-- A value looked up in `{...o, ...p}` is a fixed point of the second
overlay: overlaying `p` again cannot change it. -/
theorem assoc_spreadMerge_absorb {V : Type} {o p : Obj V} {k : String}
    {v : V} (h : assoc (spreadMerge o p) k = some v) :
    (assoc p k).getD v = v := by
  rw [assoc_spreadMerge] at h
  cases ho : assoc o k with
  | some u =>
      rw [ho] at h
      have h' : some ((assoc p k).getD u) = some v := h
      cases hp : assoc p k with
      | some w =>
          rw [hp] at h'
          simp only [Option.getD_some, Option.some.injEq] at h'
          simp only [Option.getD_some]
          exact h'
      | none => rfl
  | none =>
      rw [ho] at h
      have h' : assoc p k = some v := h
      rw [h']
      rfl

/-- Re-merging `p` into `{...o, ...p}` adds no new entries. -/
theorem filter_spreadMerge_nil {V : Type} (o p : Obj V) :
    p.filter (fun kv => !(containsKey (spreadMerge o p) kv.1)) = [] := by
  rw [List.filter_eq_nil_iff]
  intro kv hkv
  have h1 : containsKey p kv.1 = true := containsKey_of_mem hkv
  rw [containsKey_spreadMerge, h1]
  simp

/-- The shallow merge is absorbed by a repeat of the same overlay: the merged
bag is shallow-equal to itself merged with `p` again. -/
theorem shallowEquals_spreadMerge_self {V : Type} [DecidableEq V]
    (o p : Obj V) :
    shallowEquals (spreadMerge o p) (spreadMerge (spreadMerge o p) p) = true := by
  have hfil := filter_spreadMerge_nil o p
  have hrw : spreadMerge (spreadMerge o p) p =
      (spreadMerge o p).map (fun kv => (kv.1, (assoc p kv.1).getD kv.2)) := by
    show (spreadMerge o p).map (fun kv => (kv.1, (assoc p kv.1).getD kv.2)) ++
        p.filter (fun kv => !(containsKey (spreadMerge o p) kv.1)) =
      (spreadMerge o p).map (fun kv => (kv.1, (assoc p kv.1).getD kv.2))
    rw [hfil, List.append_nil]
  unfold shallowEquals
  rw [hrw, Bool.and_eq_true]
  constructor
  · simp
  · rw [List.all_eq_true]
    intro k hk
    have hs := assoc_isSome_of_mem_keys hk
    obtain ⟨v, hv⟩ := Option.isSome_iff_exists.mp hs
    have hmap := assoc_mapVals (fun s w => (assoc p s).getD w) (spreadMerge o p) k
    rw [hv] at hmap
    have habs := assoc_spreadMerge_absorb hv
    simp only [Option.map_some'] at hmap
    rw [habs] at hmap
    rw [Bool.and_eq_true]
    constructor
    · simp [containsKey, hmap]
    · simp [hv, hmap]

theorem props_requestUpdate {V : Type} (c : Component V) :
    (Component.requestUpdate c).props = c.props := by
  unfold Component.requestUpdate; split <;> rfl

theorem renderLog_requestUpdate {V : Type} (c : Component V)
    (h : c.shadowRoot = true) :
    (Component.requestUpdate c).renderLog =
      c.renderLog ++
        [Component.renderInput c.props (c.bloc.map Bloc.state)] := by
  unfold Component.requestUpdate
  rw [if_pos h]

/-- `setProps` leaves the component untouched when the merge is shallow-equal
to the current props. -/
theorem setProps_eq_self {V : Type} [DecidableEq V] {c : Component V}
    {p : Obj V} (h : shallowEquals c.props (spreadMerge c.props p) = true) :
    Component.setProps c p = c := by
  unfold Component.setProps
  simp only [h, if_true]

theorem props_setProps {V : Type} [DecidableEq V] (c : Component V)
    (p : Obj V) :
    (Component.setProps c p).props =
      if shallowEquals c.props (spreadMerge c.props p) then c.props
      else spreadMerge c.props p := by
  cases h : shallowEquals c.props (spreadMerge c.props p) with
  | true =>
      rw [setProps_eq_self h]
      simp [h]
  | false =>
      unfold Component.setProps
      cases hc : c.isConnected <;> simp [h, hc, props_requestUpdate]

/-! ### State-container lemmas -/

theorem foldl_emit_spec {S : Type} (ys : List S) (c : Bloc S) :
    (ys.foldl Bloc.emit c).state = lastD ys c.state ∧
    (ys.foldl Bloc.emit c).log = c.log ++ notifications ys c.subscribers ∧
    (ys.foldl Bloc.emit c).subscribers = c.subscribers ∧
    (ys.foldl Bloc.emit c).closed = c.closed := by
  induction ys generalizing c with
  | nil => exact ⟨rfl, by simp [notifications], rfl, rfl⟩
  | cons y ys ih =>
      obtain ⟨h1, h2, h3, h4⟩ := ih (Bloc.emit c y)
      refine ⟨?_, ?_, ?_, ?_⟩
      · rw [List.foldl_cons, h1]; rfl
      · rw [List.foldl_cons, h2]
        simp [Bloc.emit, notifications, List.append_assoc]
      · rw [List.foldl_cons, h3]; rfl
      · rw [List.foldl_cons, h4]; rfl

theorem add_of_closed {E S : Type} (f : S → E → List S) (c : Bloc S) (e : E)
    (h : c.closed = true) : Bloc.add f c e = c := by
  unfold Bloc.add
  rw [h]
  rfl

theorem runOps_of_closed {E S : Type} (f : S → E → List S) (c : Bloc S)
    (ops : List (BlocOp E)) (h : c.closed = true) :
    (runOps f c ops).log = c.log ∧ (runOps f c ops).closed = true := by
  induction ops generalizing c with
  | nil => exact ⟨rfl, h⟩
  | cons op ops ih =>
      cases op with
      | addOp e =>
          show (runOps f (Bloc.add f c e) ops).log = c.log ∧
            (runOps f (Bloc.add f c e) ops).closed = true
          rw [add_of_closed f c e h]
          exact ih c h
      | listenOp i => exact ih (Bloc.listen c i) h
      | closeOp => exact ih (Bloc.close c) rfl

theorem assoc_eq_none_of_not_containsKey {V : Type} {o : Obj V} {k : String}
    (h : containsKey o k = false) : assoc o k = none := by
  cases hx : assoc o k with
  | none => rfl
  | some w => rw [containsKey, hx] at h; simp at h

theorem onBeforeEnter_fst {V : Type} (loc : RouterLocation V)
    (store : Store V) :
    (onBeforeEnter loc store).1 =
      (spreadMerge loc.params (fromEntries loc.searchParams)).map
        (fun kv => (kv.1,
          ((assoc store (loc.pathname ++ loc.search)).bind
            (fun pp => assoc pp kv.1)).getD kv.2)) := rfl

/-- Per-key characterization of the route-entry assignment list: the
combined path/query value, overridden by the stashed value when present. -/
theorem assoc_onBeforeEnter_fst {V : Type} (loc : RouterLocation V)
    (store : Store V) (k : String) :
    assoc (onBeforeEnter loc store).1 k =
      (assoc (spreadMerge loc.params (fromEntries loc.searchParams)) k).map
        (fun w =>
          ((assoc store (loc.pathname ++ loc.search)).bind
            (fun pp => assoc pp k)).getD w) := by
  rw [onBeforeEnter_fst]
  exact assoc_mapVals
    (fun s w =>
      ((assoc store (loc.pathname ++ loc.search)).bind
        (fun pp => assoc pp s)).getD w)
    (spreadMerge loc.params (fromEntries loc.searchParams)) k

/-! ### Claim theorems -/

/-- C1: `SetProperties` is idempotent under repetition: when the shallow
merge of the current props with `p` is shallow-equal to the current props,
the call leaves the component unchanged (props untouched, no render), and in
every case a second consecutive `setProps` with the same `p` is the
identity, so two identical calls produce at most one render. -/
theorem setProps_idempotent {V : Type} [DecidableEq V] (c : Component V)
    (p : Obj V) :
    (shallowEquals c.props (spreadMerge c.props p) = true →
      Component.setProps c p = c) ∧
    Component.setProps (Component.setProps c p) p = Component.setProps c p := by
  constructor
  · exact fun h => setProps_eq_self h
  · cases h : shallowEquals c.props (spreadMerge c.props p) with
    | true =>
        rw [setProps_eq_self h]
        exact setProps_eq_self h
    | false =>
        apply setProps_eq_self
        have hp : (Component.setProps c p).props = spreadMerge c.props p := by
          simp [props_setProps, h]
        rw [hp]
        exact shallowEquals_spreadMerge_self c.props p

/-- Witness for `setProps_idempotent`: a repeated identical update on a
concrete connected component is dropped without a render. -/
theorem setProps_idempotent_witness :
    Component.setProps
      ({ props := [("a", 1)], bloc := none, subscription := false,
         isConnected := true, shadowRoot := true, renderLog := [] } :
        Component Nat) [("a", 1)] =
      { props := [("a", 1)], bloc := none, subscription := false,
        isConnected := true, shadowRoot := true, renderLog := [] } :=
  (setProps_idempotent _ [("a", 1)]).1 (by decide)

/-- C2: the merge performed by `setProps` is additive: every key present
before the call is still present afterwards, a key absent from `p` keeps
exactly its previous value, and no other lifecycle operation touches the
property bag, so keys are never removed. -/
theorem setProps_additive {V : Type} [DecidableEq V] (c : Component V)
    (p : Obj V) (k : String) :
    (containsKey c.props k = true →
      containsKey (Component.setProps c p).props k = true) ∧
    (containsKey p k = false →
      assoc (Component.setProps c p).props k = assoc c.props k) ∧
    (Component.requestUpdate c).props = c.props ∧
    (Component.connectedCallback c).props = c.props ∧
    (Component.disconnectedCallback c).props = c.props := by
  refine ⟨?_, ?_, props_requestUpdate c, props_requestUpdate _, rfl⟩
  · intro h
    rw [props_setProps]
    cases hq : shallowEquals c.props (spreadMerge c.props p) with
    | true => simpa using h
    | false =>
        simp only [Bool.false_eq_true, if_false]
        rw [containsKey_spreadMerge, h]
        rfl
  · intro h
    have h' : assoc p k = none := by
      cases hx : assoc p k with
      | none => rfl
      | some w => rw [containsKey, hx] at h; simp at h
    rw [props_setProps]
    cases hq : shallowEquals c.props (spreadMerge c.props p) with
    | true => simp
    | false =>
        simp only [Bool.false_eq_true, if_false]
        rw [assoc_spreadMerge]
        cases ho : assoc c.props k with
        | some w => rw [h']; rfl
        | none => exact h'

/-- Witness for `setProps_additive`: on a concrete bag, a merge that
overwrites `b` keeps `a` present with its exact previous value. -/
theorem setProps_additive_witness :
    containsKey
      (Component.setProps
        ({ props := [("a", 1), ("b", 2)], bloc := none, subscription := false,
           isConnected := false, shadowRoot := true, renderLog := [] } :
          Component Nat) [("b", 3)]).props "a" = true ∧
    assoc
      (Component.setProps
        ({ props := [("a", 1), ("b", 2)], bloc := none, subscription := false,
           isConnected := false, shadowRoot := true, renderLog := [] } :
          Component Nat) [("b", 3)]).props "a" = some 1 :=
  ⟨(setProps_additive _ [("b", 3)] "a").1 (by decide),
   by
     have := (setProps_additive
       ({ props := [("a", 1), ("b", 2)], bloc := none, subscription := false,
          isConnected := false, shadowRoot := true, renderLog := [] } :
         Component Nat) [("b", 3)] "a").2.1 (by decide)
     rw [this]; rfl⟩

/-- C3: with no state container, a pre-mount `setProps({name: v})` triggers
no render, and the subsequent mount triggers exactly one render whose input
holds `name = v` and an undefined state; in general `connectedCallback`
performs exactly one immediate render using the current props and the bound
container's state. -/
theorem connectedCallback_renders_once {V : Type} [DecidableEq V] (v : V)
    (c : Component V) (h : c.shadowRoot = true) :
    (Component.setProps (Component.construct (V := V) none)
        [("name", v)]).renderLog = [] ∧
    (Component.setProps (Component.construct (V := V) none)
        [("name", v)]).isConnected = false ∧
    (Component.connectedCallback
        (Component.setProps (Component.construct (V := V) none)
          [("name", v)])).renderLog =
      [Component.renderInput [("name", v)] none] ∧
    assoc (Component.renderInput [("name", v)] none) "name" = some (some v) ∧
    (Component.connectedCallback c).renderLog =
      c.renderLog ++
        [Component.renderInput c.props (c.bloc.map Bloc.state)] := by
  refine ⟨rfl, rfl, rfl, rfl, ?_⟩
  exact renderLog_requestUpdate _ h

/-- Witness for `connectedCallback_renders_once`: mounting a freshly
constructed concrete component renders exactly once. -/
theorem connectedCallback_renders_once_witness :
    (Component.connectedCallback (Component.construct (V := Nat) none)).renderLog =
      (Component.construct (V := Nat) none).renderLog ++
        [Component.renderInput (Component.construct (V := Nat) none).props
          ((Component.construct (V := Nat) none).bloc.map Bloc.state)] :=
  (connectedCallback_renders_once 7 (Component.construct none) rfl).2.2.2.2

/-- C7: `disconnectedCallback` cancels the subscription and closes a bound
container exactly once (its close-call count increases by one); it is a
total operation, safe when no subscription was ever established, and with no
bound container it closes nothing. -/
theorem disconnectedCallback_closes_once {V : Type} (c : Component V)
    (b : Bloc V) :
    (Component.disconnectedCallback c).subscription = false ∧
    (c.bloc = some b →
      (Component.disconnectedCallback c).bloc = some (Bloc.close b) ∧
      (Component.disconnectedCallback c).bloc.map Bloc.closeCalls =
        some (b.closeCalls + 1)) ∧
    (c.bloc = none →
      Component.disconnectedCallback c = { c with subscription := false }) := by
  refine ⟨rfl, fun h => ?_, fun h => ?_⟩
  · unfold Component.disconnectedCallback
    rw [h]
    exact ⟨rfl, rfl⟩
  · unfold Component.disconnectedCallback
    rw [h]
    rfl

/-- Witness for `disconnectedCallback_closes_once`: unmounting a concrete
container-bound component closes its container exactly once, and a concrete
container-free component is unmounted safely with nothing closed. -/
theorem disconnectedCallback_closes_once_witness :
    ((Component.disconnectedCallback
        ({ props := [], bloc := some ⟨0, false, [], [], 0⟩,
           subscription := true, isConnected := true, shadowRoot := true,
           renderLog := [] } : Component Nat)).bloc =
        some (Bloc.close ⟨0, false, [], [], 0⟩) ∧
      (Component.disconnectedCallback
        ({ props := [], bloc := some ⟨0, false, [], [], 0⟩,
           subscription := true, isConnected := true, shadowRoot := true,
           renderLog := [] } : Component Nat)).bloc.map Bloc.closeCalls =
        some 1) ∧
    Component.disconnectedCallback
      ({ props := [], bloc := none, subscription := false,
         isConnected := true, shadowRoot := true, renderLog := [] } :
        Component Nat) =
      { props := [], bloc := none, subscription := false,
        isConnected := true, shadowRoot := true, renderLog := [] } :=
  ⟨(disconnectedCallback_closes_once _ ⟨0, false, [], [], 0⟩).2.1 rfl,
   (disconnectedCallback_closes_once _ ⟨0, false, [], [], 0⟩).2.2 rfl⟩

/-- C9: `requestUpdate` is a defensive no-op when the shadow-root render
target does not exist: it returns the component unchanged and hands nothing
to the renderer. -/
theorem requestUpdate_noop_without_target {V : Type} (c : Component V)
    (h : c.shadowRoot = false) : Component.requestUpdate c = c := by
  unfold Component.requestUpdate
  simp [h]

/-- Witness for `requestUpdate_noop_without_target` on a concrete component
lacking a render target. -/
theorem requestUpdate_noop_without_target_witness :
    Component.requestUpdate
      ({ props := [("a", 1)], bloc := none, subscription := false,
         isConnected := true, shadowRoot := false, renderLog := [] } :
        Component Nat) =
      { props := [("a", 1)], bloc := none, subscription := false,
        isConnected := true, shadowRoot := false, renderLog := [] } :=
  requestUpdate_noop_without_target _ rfl

/-- C6 (spec-modelled, the container library being external): after `Add(E)`
resolves on an open container, the current state is the last state yielded
by `EventToState` applied starting from the prior state — unchanged when
nothing is yielded — and each yielded state is broadcast to all current
subscribers in subscription order before the next yield is processed. -/
theorem add_reduces_to_last {E S : Type} (f : S → E → List S) (c : Bloc S)
    (e : E) (h : c.closed = false) :
    (Bloc.add f c e).state = lastD (f c.state e) c.state ∧
    (Bloc.add f c e).log =
      c.log ++ notifications (f c.state e) c.subscribers := by
  have hadd : Bloc.add f c e = (f c.state e).foldl Bloc.emit c := by
    unfold Bloc.add
    rw [h]
    rfl
  rw [hadd]
  obtain ⟨h1, h2, _, _⟩ := foldl_emit_spec (f c.state e) c
  exact ⟨h1, h2⟩

/-- Witness for `add_reduces_to_last`: a concrete two-yield reduction with
two subscribers lands on the last yield and interleaves no deliveries. -/
theorem add_reduces_to_last_witness :
    (Bloc.add (fun (s : Nat) (e : Nat) => [s + e, e])
        ⟨1, false, [1, 2], [], 0⟩ 10).state =
      lastD ((fun (s : Nat) (e : Nat) => [s + e, e]) 1 10) 1 ∧
    (Bloc.add (fun (s : Nat) (e : Nat) => [s + e, e])
        ⟨1, false, [1, 2], [], 0⟩ 10).log =
      [] ++ notifications ((fun (s : Nat) (e : Nat) => [s + e, e]) 1 10)
        [1, 2] :=
  add_reduces_to_last (fun s e => [s + e, e]) ⟨1, false, [1, 2], [], 0⟩ 10 rfl

/-- C8 (spec-modelled, the container library being external): a subscriber
registered via `Listen` after `Close()` has been called is never notified:
across every subsequent sequence of interactions the delivery log never
grows, and the late subscriber never appears in it. -/
theorem listen_after_close_never_notified {E S : Type} (f : S → E → List S)
    (c : Bloc S) (i : Nat) (ops : List (BlocOp E)) (h : c.closed = true)
    (hfresh : i ∉ c.log.map Prod.fst) :
    (runOps f (Bloc.listen c i) ops).log = c.log ∧
    i ∉ (runOps f (Bloc.listen c i) ops).log.map Prod.fst := by
  obtain ⟨h1, _⟩ := runOps_of_closed f (Bloc.listen c i) ops h
  refine ⟨h1, ?_⟩
  rw [h1]
  exact hfresh

/-- Witness for `listen_after_close_never_notified`: a subscriber attached
to a concrete closed container sees no notification across later adds and
closes. -/
theorem listen_after_close_never_notified_witness :
    (runOps (fun (s : Nat) (e : Nat) => [s + e])
        (Bloc.listen ⟨5, true, [], [(0, 5)], 1⟩ 3)
        [BlocOp.addOp 7, BlocOp.closeOp, BlocOp.addOp 8]).log = [(0, 5)] ∧
    3 ∉ (runOps (fun (s : Nat) (e : Nat) => [s + e])
        (Bloc.listen ⟨5, true, [], [(0, 5)], 1⟩ 3)
        [BlocOp.addOp 7, BlocOp.closeOp, BlocOp.addOp 8]).log.map Prod.fst :=
  listen_after_close_never_notified (fun s e => [s + e])
    ⟨5, true, [], [(0, 5)], 1⟩ 3 [BlocOp.addOp 7, BlocOp.closeOp, BlocOp.addOp 8]
    rfl (by decide)

/-- Counterexample to C4 as stated: on a key collision between a path
parameter and a query parameter, with nothing stashed, `onBeforeEnter`
assigns the query-parameter value, not the path-parameter value. -/
theorem onBeforeEnter_path_precedence_cex :
    (onBeforeEnter
        ({ pathname := "/p", search := "?a=2", params := [("a", 1)],
           searchParams := [("a", 2)] } : RouterLocation Nat) []).1 =
      [("a", 2)] ∧
    (onBeforeEnter
        ({ pathname := "/p", search := "?a=2", params := [("a", 1)],
           searchParams := [("a", 2)] } : RouterLocation Nat) []).1 ≠
      [("a", 1)] := by
  exact ⟨by decide, by decide⟩

/-- C4 (amended): `onBeforeEnter` combines the route's path parameters and
query parameters into one mapping in which, on a key collision, the
query-parameter value takes precedence over the path-parameter value, and a
previously-stashed navigation param for the same key overrides both. -/
theorem onBeforeEnter_combines_params {V : Type} (loc : RouterLocation V)
    (store : Store V) (k : String) :
    assoc (onBeforeEnter loc store).1 k =
      (assoc (spreadMerge loc.params (fromEntries loc.searchParams)) k).map
        (fun w =>
          ((assoc store (loc.pathname ++ loc.search)).bind
            (fun pp => assoc pp k)).getD w) ∧
    (∀ v qv, assoc loc.params k = some v →
      assoc (fromEntries loc.searchParams) k = some qv →
      (assoc store (loc.pathname ++ loc.search)).bind
        (fun pp => assoc pp k) = none →
      assoc (onBeforeEnter loc store).1 k = some qv) ∧
    (∀ sv, (assoc store (loc.pathname ++ loc.search)).bind
        (fun pp => assoc pp k) = some sv →
      containsKey (spreadMerge loc.params (fromEntries loc.searchParams)) k =
        true →
      assoc (onBeforeEnter loc store).1 k = some sv) := by
  refine ⟨assoc_onBeforeEnter_fst loc store k, ?_, ?_⟩
  · intro v qv hv hq hstash
    have hm : assoc (spreadMerge loc.params (fromEntries loc.searchParams)) k
        = some qv := by
      rw [assoc_spreadMerge, hv, hq]
      rfl
    rw [assoc_onBeforeEnter_fst, hm, hstash]
    rfl
  · intro sv hstash hck
    obtain ⟨w, hw⟩ := Option.isSome_iff_exists.mp hck
    rw [assoc_onBeforeEnter_fst, hw, hstash]
    rfl

/-- Witness for `onBeforeEnter_combines_params`: concretely, the query value
wins a collision when nothing is stashed, and a stashed value overrides the
URL-derived one. -/
theorem onBeforeEnter_combines_params_witness :
    assoc (onBeforeEnter
        ({ pathname := "/p", search := "?a=2", params := [("a", 1)],
           searchParams := [("a", 2)] } : RouterLocation Nat) []).1 "a" =
      some 2 ∧
    assoc (onBeforeEnter
        ({ pathname := "/p", search := "", params := [("a", 1)],
           searchParams := [] } : RouterLocation Nat)
        [("/p", [("a", 9)])]).1 "a" = some 9 :=
  ⟨(onBeforeEnter_combines_params _ [] "a").2.1 1 2 rfl rfl rfl,
   (onBeforeEnter_combines_params _ [("/p", [("a", 9)])] "a").2.2 9
     (by decide) (by decide)⟩

/-- C10: `onBeforeEnter` assigns properties only for keys occurring among
the route's path parameters or query parameters: a stashed key occurring in
neither is never assigned, although the store entry for the current
path+query is still deleted. -/
theorem onBeforeEnter_assigns_only_url_keys {V : Type}
    (loc : RouterLocation V) (store : Store V) (k : String)
    (h1 : containsKey loc.params k = false)
    (h2 : containsKey (fromEntries loc.searchParams) k = false) :
    containsKey (onBeforeEnter loc store).1 k = false ∧
    assoc (onBeforeEnter loc store).2 (loc.pathname ++ loc.search) = none := by
  constructor
  · have hm : assoc (spreadMerge loc.params (fromEntries loc.searchParams)) k
        = none := by
      rw [assoc_spreadMerge, assoc_eq_none_of_not_containsKey h1]
      exact assoc_eq_none_of_not_containsKey h2
    rw [containsKey, assoc_onBeforeEnter_fst, hm]
    rfl
  · show assoc (removeKey store (loc.pathname ++ loc.search))
      (loc.pathname ++ loc.search) = none
    rw [assoc_removeKey]
    simp

/-- Witness for `onBeforeEnter_assigns_only_url_keys`: a concrete stash for
`a` at a bare path is consumed and deleted without assigning `a`. -/
theorem onBeforeEnter_assigns_only_url_keys_witness :
    containsKey (onBeforeEnter
        ({ pathname := "/x", search := "", params := [],
           searchParams := [] } : RouterLocation Nat)
        [("/x", [("a", 1)])]).1 "a" = false ∧
    assoc (onBeforeEnter
        ({ pathname := "/x", search := "", params := [],
           searchParams := [] } : RouterLocation Nat)
        [("/x", [("a", 1)])]).2 ("/x" ++ "") = none :=
  onBeforeEnter_assigns_only_url_keys _ [("/x", [("a", 1)])] "a" rfl rfl

/-- Counterexample to C5 as stated: after `navigate("/x", {params:{a:1}})`
stashes `{a:1}` under `"/x"`, route entry at the plain path `/x` (no path
parameters, empty query) deletes the store entry but assigns nothing at all,
so the component does not observe `a = 1`. -/
theorem navigate_roundtrip_cex :
    navigate "/x" [("a", 1)] ([] : Store Nat) = [("/x", [("a", 1)])] ∧
    (onBeforeEnter
        ({ pathname := "/x", search := "", params := [],
           searchParams := [] } : RouterLocation Nat)
        [("/x", [("a", 1)])]).1 = [] ∧
    (onBeforeEnter
        ({ pathname := "/x", search := "", params := [],
           searchParams := [] } : RouterLocation Nat)
        [("/x", [("a", 1)])]).2 = [] := by
  exact ⟨by decide, by decide, by decide⟩

/-- C5 (amended): after `navigate` stashes a non-empty params object under
the current path+query, route entry deletes the store entry — the store no
longer holds it — and the component observes the stashed value for a key
exactly where that key also occurs among the route's path or query
parameters; at a bare path a stashed-only key is not assigned. -/
theorem navigate_roundtrip {V : Type} (loc : RouterLocation V)
    (store : Store V) (pp : Obj V) (k : String) (v : V)
    (hne : 0 < pp.length)
    (hv : assoc pp k = some v)
    (hurl : containsKey
      (spreadMerge loc.params (fromEntries loc.searchParams)) k = true) :
    assoc (onBeforeEnter loc
        (navigate (loc.pathname ++ loc.search) pp store)).1 k = some v ∧
    assoc (onBeforeEnter loc
        (navigate (loc.pathname ++ loc.search) pp store)).2
      (loc.pathname ++ loc.search) = none := by
  have hnav : navigate (loc.pathname ++ loc.search) pp store =
      setKey store (loc.pathname ++ loc.search) pp := by
    unfold navigate
    rw [if_pos hne]
  have hs : assoc (setKey store (loc.pathname ++ loc.search) pp)
      (loc.pathname ++ loc.search) = some pp := by
    rw [assoc_setKey]
    simp
  obtain ⟨w, hw⟩ := Option.isSome_iff_exists.mp hurl
  constructor
  · rw [assoc_onBeforeEnter_fst, hnav, hw, hs]
    simp [hv]
  · rw [hnav]
    show assoc (removeKey (setKey store (loc.pathname ++ loc.search) pp)
        (loc.pathname ++ loc.search)) (loc.pathname ++ loc.search) = none
    rw [assoc_removeKey]
    simp

/-- Witness for `navigate_roundtrip`: with a route exposing `a` as a path
parameter, a concretely stashed `a = 1` is observed on entry and the store
entry is gone. -/
theorem navigate_roundtrip_witness :
    assoc (onBeforeEnter
        ({ pathname := "/x", search := "", params := [("a", 0)],
           searchParams := [] } : RouterLocation Nat)
        (navigate ("/x" ++ "") [("a", 1)] [])).1 "a" = some 1 ∧
    assoc (onBeforeEnter
        ({ pathname := "/x", search := "", params := [("a", 0)],
           searchParams := [] } : RouterLocation Nat)
        (navigate ("/x" ++ "") [("a", 1)] [])).2 ("/x" ++ "") = none :=
  navigate_roundtrip _ [] [("a", 1)] "a" 1 (by decide) rfl (by decide)

end BaseComp
